import Mathlib

/-!
Shallow embedding of the osfs extent-based filesystem core
(src/inode.c, src/file.c, src/dir.c).

Loops of the C source become fuel-indexed structural recursions; each
wrapper supplies a fuel that covers every iteration the C loop can make
(the bitmap scans are bounded by the block/inode count, the extent-slot
scans by the fixed 4-slot array).  Byte buffers and the data-block region
become total functions `Nat -> Nat` (byte address to byte value), so the
user-space copy primitives never fault; the in-kernel VFS allocation
`new_inode`, which can fail externally, is modelled by an explicit
`vfs_ok : Bool` parameter.  The free counters are `uint32_t` in the C
source (whose header is not part of src/); no claim exercises their
wraparound, so they are modelled as `Int`.  Error returns are the Linux
errno sentinels the source uses, as negative integers.
-/

/-- Linux errno value the source returns for every out-of-space condition. -/
def ENOSPC : Int := 28

/-- Linux errno for an unsupported file type in osfs_new_inode. -/
def EINVAL : Int := 22

/-- Linux errno for a kernel memory allocation failure (new_inode). -/
def ENOMEM : Int := 12

/-- Linux errno for the osfs_inode lookup failure after reservation
(the source's EIO; named EIOFault here to avoid the Lean core name). -/
def EIOFault : Int := 5

/-- Linux errno for an over-long file name in osfs_add_dir_entry. -/
def ENAMETOOLONG : Int := 36

/-- Modelled from the spec: the fixed block size granularity.  The header
(osfs.h) defining BLOCK_SIZE is not part of src/; the spec's scenario
(section 8) fixes the block size at 4096 bytes. -/
def BLOCK_SIZE : Nat := 4096

/-- Modelled from the spec: the fixed maximum filename length
(MAX_FILENAME_LEN lives in osfs.h, which is not part of src/); the spec
only requires it to be a fixed bound, so a concrete representative is
chosen consistent with a 256-byte directory entry. -/
def MAX_FILENAME_LEN : Nat := 251

/-- Modelled from the spec: sizeof(struct osfs_dir_entry), a fixed-size
record of a bounded null-terminated name plus a 32-bit inode number
(osfs.h is not part of src/); 256 gives the spec's 16 entries per block. -/
def DIR_ENTRY_SIZE : Nat := 256

/-- Directory entries per data block, BLOCK_SIZE / sizeof(struct osfs_dir_entry). -/
def ENTRIES_PER_BLOCK : Nat := BLOCK_SIZE / DIR_ENTRY_SIZE

/-- test_bit of the kernel bitmap api: bit `i` of the bitmap. -/
def test_bit (i : Nat) (bm : List Bool) : Bool := bm.getD i false

/-- set_bit of the kernel bitmap api: sets bit `i`. -/
def set_bit (i : Nat) (bm : List Bool) : List Bool := bm.set i true

/-- clear_bit of the kernel bitmap api: clears bit `i`. -/
def clear_bit (i : Nat) (bm : List Bool) : List Bool := bm.set i false

/-- Number of set bits of a bitmap. -/
def popcount (bm : List Bool) : Nat := bm.count true

/-- Marks `cnt` consecutive bits starting at `start` (the `for (j = start_block;
j < start_block + required_blocks; j++) set_bit(j, ...)` loop of
osfs_alloc_extent). -/
def setBits (bm : List Bool) : Nat → Nat → List Bool
  | _start, 0 => bm
  | start, c + 1 => setBits (set_bit start bm) (start + 1) c

/-- One extent of struct osfs_inode: a contiguous physical block run;
block_count = 0 marks an unused slot of the fixed 4-slot array. -/
structure OsfsExtent where
  start_block : Nat
  block_count : Nat
deriving DecidableEq

/-- File type of an inode mode (S_ISDIR / S_ISREG / S_ISLNK); `other`
covers every mode osfs_new_inode rejects. -/
inductive FMode
  | dir
  | reg
  | lnk
  | other
deriving DecidableEq

/-- struct osfs_inode: the fields the claims depend on (inode number, type,
size, block count, the fixed 4-slot extent array and its use count).  The
uid/gid/timestamp fields of the C struct play no role in any claim and are
omitted. -/
structure OsfsInode where
  i_ino : Nat
  i_mode : FMode
  i_size : Nat
  i_blocks : Nat
  extents : List OsfsExtent
  extent_count : Nat
deriving DecidableEq

/-- struct osfs_sb_info: counts, free counters and both bitmaps.  The data
block region and the inode table are carried separately by the operations
that touch them. -/
structure OsfsSbInfo where
  inode_count : Nat
  block_count : Nat
  nr_free_inodes : Int
  nr_free_blocks : Int
  inode_bitmap : List Bool
  block_bitmap : List Bool
deriving DecidableEq

/-- struct osfs_dir_entry: a filename bound to an inode number; inode
number 0 marks a free slot. -/
structure OsfsDirEntry where
  filename : String
  inode_no : Nat
deriving DecidableEq

/-- The spec's superblock counter invariant (sections 3 and 8):
nr_free_blocks + popcount(block_bitmap) == block_count, and the inode
analog. -/
def sbInvariant (sb : OsfsSbInfo) : Prop :=
  sb.nr_free_blocks + (popcount sb.block_bitmap : Int) = (sb.block_count : Int) ∧
  sb.nr_free_inodes + (popcount sb.inode_bitmap : Int) = (sb.inode_count : Int)

instance (sb : OsfsSbInfo) : Decidable (sbInvariant sb) := by
  unfold sbInvariant; infer_instance

/-- Scan loop of osfs_get_free_inode: first clear bit from index `ino`
upward, bounded by inode_count; fuel covers the remaining indices. -/
def osfs_get_free_inode_loop (sb : OsfsSbInfo) : Nat → Nat → OsfsSbInfo × Int
  | _ino, 0 => (sb, -ENOSPC)
  | ino, fuel + 1 =>
    if ino < sb.inode_count then
      if test_bit ino sb.inode_bitmap = false then
        ({sb with inode_bitmap := set_bit ino sb.inode_bitmap,
                  nr_free_inodes := sb.nr_free_inodes - 1}, Int.ofNat ino)
      else osfs_get_free_inode_loop sb (ino + 1) fuel
    else (sb, -ENOSPC)

/-- osfs_get_free_inode (src/inode.c): linear scan from index 1 for the
first clear inode bit; sets it and decrements nr_free_inodes. -/
def osfs_get_free_inode (sb : OsfsSbInfo) : OsfsSbInfo × Int :=
  osfs_get_free_inode_loop sb 1 sb.inode_count

/-- Scan loop of osfs_alloc_data_block: first clear block bit from 0. -/
def osfs_alloc_data_block_loop (sb : OsfsSbInfo) : Nat → Nat → OsfsSbInfo × Except Int Nat
  | _i, 0 => (sb, Except.error (-ENOSPC))
  | i, fuel + 1 =>
    if i < sb.block_count then
      if test_bit i sb.block_bitmap = false then
        ({sb with block_bitmap := set_bit i sb.block_bitmap,
                  nr_free_blocks := sb.nr_free_blocks - 1}, Except.ok i)
      else osfs_alloc_data_block_loop sb (i + 1) fuel
    else (sb, Except.error (-ENOSPC))

/-- osfs_alloc_data_block (src/inode.c): first-fit scan for one clear block
bit; on success returns the block number through *block_no. -/
def osfs_alloc_data_block (sb : OsfsSbInfo) : OsfsSbInfo × Except Int Nat :=
  osfs_alloc_data_block_loop sb 0 sb.block_count

/-- osfs_free_data_block (src/inode.c): clears the bit and increments the
free counter (double frees are not validated, exactly as in the source). -/
def osfs_free_data_block (sb : OsfsSbInfo) (block_no : Nat) : OsfsSbInfo :=
  {sb with block_bitmap := clear_bit block_no sb.block_bitmap,
           nr_free_blocks := sb.nr_free_blocks + 1}

/-- The extent-slot scan of osfs_alloc_extent: index of the first slot with
block_count == 0 (the C loop over the fixed 4-slot array). -/
def firstZeroSlot : List OsfsExtent → Option Nat
  | [] => none
  | e :: rest =>
    if e.block_count = 0 then some 0
    else (firstZeroSlot rest).map (· + 1)

/-- Scan loop of osfs_alloc_extent (src/inode.c): walks the block bitmap
accumulating a run of consecutive clear bits (`start` is the recorded run
start, `consec` the current run length); on reaching `required` it claims
the first free extent slot, marks the run's blocks and debits the free
counter.  Fuel covers the indices still to visit. -/
def osfs_alloc_extent_loop (sb : OsfsSbInfo) (required : Nat) (inode : OsfsInode) :
    Nat → Nat → Nat → Nat → OsfsSbInfo × OsfsInode × Int
  | _i, _start, _consec, 0 => (sb, inode, -ENOSPC)
  | i, start, consec, fuel + 1 =>
    if i < sb.block_count then
      if test_bit i sb.block_bitmap = false then
        let start' := if consec = 0 then i else start
        if consec + 1 = required then
          match firstZeroSlot inode.extents with
          | some idx =>
            ({sb with block_bitmap := setBits sb.block_bitmap start' required,
                      nr_free_blocks := sb.nr_free_blocks - (required : Int)},
             {inode with extents := inode.extents.set idx ⟨start', required⟩,
                         extent_count := inode.extent_count + 1}, 0)
          | none => (sb, inode, -ENOSPC)
        else osfs_alloc_extent_loop sb required inode (i + 1) start' (consec + 1) fuel
      else osfs_alloc_extent_loop sb required inode (i + 1) start 0 fuel
    else (sb, inode, -ENOSPC)

/-- osfs_alloc_extent (src/inode.c): allocates one extent of exactly
`required` contiguous blocks for `inode`, or fails with -ENOSPC (both when
no contiguous run exists and when all 4 extent slots are in use). -/
def osfs_alloc_extent (sb : OsfsSbInfo) (required : Nat) (inode : OsfsInode) :
    OsfsSbInfo × OsfsInode × Int :=
  osfs_alloc_extent_loop sb required inode 0 0 0 sb.block_count

/-- Spec-side predicate: the blocks [s, s+req) are all clear in the bitmap. -/
def freeRunAt (bm : List Bool) (s req : Nat) : Bool :=
  (List.range req).all fun k => !test_bit (s + k) bm

/-- Spec-side predicate: some single contiguous run of `req` clear bits
exists inside [0, count). -/
def hasFreeRun (bm : List Bool) (count req : Nat) : Bool :=
  (List.range count).any fun s => decide (s + req ≤ count) && freeRunAt bm s req

/-- Count of unused extent slots (block_count == 0) of an extent array. -/
def countZeroSlots (l : List OsfsExtent) : Nat :=
  l.countP fun e => e.block_count == 0

/-- Count of used extent slots (block_count != 0) of an extent array. -/
def countNonzeroSlots (l : List OsfsExtent) : Nat :=
  l.countP fun e => e.block_count != 0

/-- Result of osfs_read: the user buffer after copy_to_user, the advanced
file position and the byte count the call returns. -/
structure ReadResult where
  buf : Nat → Nat
  ppos : Nat
  bytesRead : Nat

/-- The extent loop of osfs_read (src/file.c): for each extent in list
order, while bytes remain, if *ppos falls inside the extent's physical
byte range [start_block*BLOCK_SIZE, end), copy the overlapping span.  The
source address is data_blocks + *ppos (the absolute position, NOT offset
by the extent's start block). -/
def readPass (data : Nat → Nat) : List OsfsExtent → (Nat → Nat) → Nat → Nat → Nat → ReadResult
  | [], ubuf, ppos, _len, got => ⟨ubuf, ppos, got⟩
  | e :: rest, ubuf, ppos, len, got =>
    if len = 0 then ⟨ubuf, ppos, got⟩
    else
      let sbB := e.start_block * BLOCK_SIZE
      let endB := sbB + e.block_count * BLOCK_SIZE
      if sbB ≤ ppos ∧ ppos < endB then
        let t := min len (endB - ppos)
        let ubuf' := fun a => if got ≤ a ∧ a < got + t then data (ppos + (a - got)) else ubuf a
        readPass data rest ubuf' (ppos + t) (len - t) (got + t)
      else readPass data rest ubuf ppos len got

/-- osfs_read (src/file.c): returns 0 bytes if the inode has no extents or
*ppos is at or past i_size; clamps len to i_size; then scans the extents. -/
def osfs_read (data : Nat → Nat) (inode : OsfsInode) (ubuf : Nat → Nat)
    (ppos len : Nat) : ReadResult :=
  if inode.extent_count = 0 ∨ inode.i_size ≤ ppos then ⟨ubuf, ppos, 0⟩
  else
    let len' := if inode.i_size < ppos + len then inode.i_size - ppos else len
    readPass data (inode.extents.take inode.extent_count) ubuf ppos len' 0

/-- Mutable state of the osfs_write loops: the data-block region, the file
position, the bytes copied so far, the bytes still to copy, and the inode
(whose i_size is updated after each chunk). -/
structure WriteSt where
  data : Nat → Nat
  ppos : Nat
  written : Nat
  len : Nat
  inode : OsfsInode

/-- Result of osfs_write: superblock, data region, inode, position, and the
returned value (the byte count on success, a negative errno on failure). -/
structure WriteResult where
  sb : OsfsSbInfo
  data : Nat → Nat
  inode : OsfsInode
  ppos : Nat
  res : Int

/-- The inner for-loop of osfs_write (src/file.c): one pass over the
extents in use; if *ppos lies inside an extent's physical byte range,
copy up to the extent's end.  The destination address is
data_blocks + (*ppos - start_block*BLOCK_SIZE), i.e. offset by the
extent's start block (unlike osfs_read).  i_size is raised to *ppos after
each chunk. -/
def writePass (buf : Nat → Nat) : List OsfsExtent → WriteSt → WriteSt
  | [], st => st
  | e :: rest, st =>
    if st.len = 0 then st
    else
      let sbB := e.start_block * BLOCK_SIZE
      let endB := sbB + e.block_count * BLOCK_SIZE
      if sbB ≤ st.ppos ∧ st.ppos < endB then
        let t := min st.len (endB - st.ppos)
        let base := st.ppos - sbB
        let data' := fun a =>
          if base ≤ a ∧ a < base + t then buf (st.written + (a - base)) else st.data a
        let ppos' := st.ppos + t
        let size' := if st.inode.i_size < ppos' then ppos' else st.inode.i_size
        writePass buf rest
          ⟨data', ppos', st.written + t, st.len - t, {st.inode with i_size := size'}⟩
      else writePass buf rest st

/-- The state update of one copy chunk of osfs_write's inner loop,
restated as a standalone function (definitionally equal to the chunk
branch of `writePass`; used by the proofs below to name the intermediate
state). -/
def writeChunk (buf : Nat → Nat) (e : OsfsExtent) (st : WriteSt) : WriteSt :=
  let sbB := e.start_block * BLOCK_SIZE
  let endB := sbB + e.block_count * BLOCK_SIZE
  let t := min st.len (endB - st.ppos)
  let base := st.ppos - sbB
  ⟨fun a => if base ≤ a ∧ a < base + t then buf (st.written + (a - base)) else st.data a,
   st.ppos + t, st.written + t, st.len - t,
   {st.inode with i_size :=
     if st.inode.i_size < st.ppos + t then st.ppos + t else st.inode.i_size}⟩

/-- The outer while-loop of osfs_write: pass over the extents, then if
bytes remain allocate one more 1-block extent and retry; an allocation
failure returns the errno (NOT the partial byte count).  Each iteration
short of the last performs an allocation, and at most 4 can succeed before
the slot scan fails, so fuel 8 covers every possible iteration. -/
def osfs_write_loop (buf : Nat → Nat) : OsfsSbInfo → WriteSt → Nat → WriteResult
  | sb, st, 0 => ⟨sb, st.data, st.inode, st.ppos, Int.ofNat st.written⟩
  | sb, st, fuel + 1 =>
    if st.len = 0 then ⟨sb, st.data, st.inode, st.ppos, Int.ofNat st.written⟩
    else
      let st' := writePass buf (st.inode.extents.take st.inode.extent_count) st
      if st'.len = 0 then osfs_write_loop buf sb st' fuel
      else
        let out := osfs_alloc_extent sb 1 st'.inode
        if out.2.2 ≠ 0 then ⟨out.1, st'.data, out.2.1, st'.ppos, out.2.2⟩
        else osfs_write_loop buf out.1 {st' with inode := out.2.1} fuel

/-- osfs_write (src/file.c): if the inode has no extents, allocate one
1-block extent first (propagating a failure); then run the write loop. -/
def osfs_write (sb : OsfsSbInfo) (data : Nat → Nat) (inode : OsfsInode) (ppos : Nat)
    (buf : Nat → Nat) (len : Nat) : WriteResult :=
  if inode.extent_count = 0 then
    let out := osfs_alloc_extent sb 1 inode
    if out.2.2 ≠ 0 then ⟨out.1, data, out.2.1, ppos, out.2.2⟩
    else osfs_write_loop buf out.1 ⟨data, ppos, 0, len, {out.2.1 with extent_count := 1}⟩ 8
  else osfs_write_loop buf sb ⟨data, ppos, 0, len, inode⟩ 8

/-- Global directory-slot index of entry `j` of an extent starting at
block `start_block` (the data region viewed as an array of fixed-size
directory entries). -/
def slotOf (start_block j : Nat) : Nat := start_block * ENTRIES_PER_BLOCK + j

/-- The inner slot scan of osfs_add_dir_entry: first slot with
inode_no == 0 among the `cnt` entries of one extent, scanning from `j`;
fuel covers the remaining slots. -/
def scanSlots (dents : Nat → OsfsDirEntry) (base cnt : Nat) : Nat → Nat → Option Nat
  | _j, 0 => none
  | j, fuel + 1 =>
    if j < cnt then
      if (dents (base + j)).inode_no = 0 then some (base + j)
      else scanSlots dents base cnt (j + 1) fuel
    else none

/-- The extent scan of osfs_add_dir_entry: first free directory slot over
the extents in use, in extent order then slot order. -/
def findFreeDirSlot (dents : Nat → OsfsDirEntry) : List OsfsExtent → Option Nat
  | [] => none
  | e :: rest =>
    let cnt := e.block_count * ENTRIES_PER_BLOCK
    match scanSlots dents (slotOf e.start_block 0) cnt 0 cnt with
    | some a => some a
    | none => findFreeDirSlot dents rest

/-- osfs_add_dir_entry (src/dir.c): rejects an over-long name; writes
(name, inode_no) into the first free slot of the existing extents; if none
is free, allocates one 1-block extent and recurses.  The C recursion is
bounded because each successful osfs_alloc_extent consumes one of the 4
extent slots, so fuel 5 suffices (proved below); fuel exhaustion is the
`none` result. -/
def osfs_add_dir_entry :
    Nat → OsfsSbInfo → (Nat → OsfsDirEntry) → OsfsInode → Nat → String → Nat →
    Option (OsfsSbInfo × (Nat → OsfsDirEntry) × OsfsInode × Int)
  | 0, _, _, _, _, _, _ => none
  | fuel + 1, sb, dents, parent, ino_no, name, name_len =>
    if MAX_FILENAME_LEN < name_len then some (sb, dents, parent, -ENAMETOOLONG)
    else
      match findFreeDirSlot dents (parent.extents.take parent.extent_count) with
      | some addr =>
        some (sb, fun a => if a = addr then ⟨name, ino_no⟩ else dents a, parent, 0)
      | none =>
        let out := osfs_alloc_extent sb 1 parent
        if out.2.2 ≠ 0 then some (out.1, dents, out.2.1, out.2.2)
        else osfs_add_dir_entry fuel out.1 dents out.2.1 ino_no name name_len

/-- State of the osfs_iterate loops: entries emitted so far, the cursor
ctx->pos, the remaining capacity of the caller's buffer (how many more
entries dir_emit accepts), and whether dir_emit has refused one. -/
structure IterSt where
  emitted : List (String × Nat)
  pos : Nat
  budget : Nat
  ok : Bool

/-- The inner entry loop of osfs_iterate (src/dir.c): `for (j = ctx->pos - 2;
j < extent_entry_count; j++)` — the start index is re-derived from the
CURRENT ctx->pos at every extent; slots with inode_no 0 are skipped
without advancing ctx->pos; an emitted entry advances ctx->pos by 1; a
refused dir_emit aborts with ok := false. -/
def iterSlots (dents : Nat → OsfsDirEntry) (base cnt : Nat) : Nat → IterSt → Nat → IterSt
  | _j, st, 0 => st
  | j, st, fuel + 1 =>
    if j < cnt then
      let e := dents (base + j)
      if e.inode_no = 0 then iterSlots dents base cnt (j + 1) st fuel
      else if st.budget = 0 then {st with ok := false}
      else
        iterSlots dents base cnt (j + 1)
          {st with emitted := st.emitted ++ [(e.filename, e.inode_no)],
                   pos := st.pos + 1, budget := st.budget - 1} fuel
    else st

/-- The extent loop of osfs_iterate: each extent's entries in slot order; a
refused dir_emit returns -EINVAL (as the source does). -/
def iterExtents (dents : Nat → OsfsDirEntry) :
    List OsfsExtent → IterSt → List (String × Nat) × Nat × Int
  | [], st => (st.emitted, st.pos, 0)
  | e :: rest, st =>
    let cnt := e.block_count * ENTRIES_PER_BLOCK
    let st' := iterSlots dents (slotOf e.start_block 0) cnt (st.pos - 2) st cnt
    if st'.ok then iterExtents dents rest st'
    else (st'.emitted, st'.pos, -EINVAL)

/-- osfs_iterate (src/dir.c): at pos 0 emits the two dot entries through
dir_emit_dots (advancing pos to 2; "." carries the directory's own inode
number, ".." its parent's, supplied by the VFS and modelled as 0), then
walks the extents.  `budget` models how many entries the caller's buffer
accepts before dir_emit refuses.  Returns (emitted entries, final pos,
status). -/
def osfs_iterate (dents : Nat → OsfsDirEntry) (inode : OsfsInode)
    (pos budget : Nat) : List (String × Nat) × Nat × Int :=
  if pos = 0 then
    if budget = 0 then ([], 0, 0)
    else if budget = 1 then ([(".", inode.i_ino)], 1, 0)
    else
      iterExtents dents (inode.extents.take inode.extent_count)
        ⟨[(".", inode.i_ino), ("..", 0)], 2, budget - 2, true⟩
  else if pos = 1 then
    if budget = 0 then ([], 1, 0)
    else
      iterExtents dents (inode.extents.take inode.extent_count)
        ⟨[("..", 0)], 2, budget - 1, true⟩
  else iterExtents dents (inode.extents.take inode.extent_count) ⟨[], pos, budget, true⟩

/-- osfs_new_inode (src/dir.c): rejects unsupported modes; rejects zero
free counters; reserves an inode number via osfs_get_free_inode (which
already decrements nr_free_inodes); allocates the VFS inode (`vfs_ok`
models the external new_inode allocation); fetches the on-disk record
(fails EIO iff the number is 0 or out of range); zero-initializes and
populates it; allocates one initial 1-block extent; then decrements
nr_free_inodes AGAIN ("Update superblock information").  No failure path
after the reservation clears the reserved bitmap bit. -/
def osfs_new_inode (sb : OsfsSbInfo) (mode : FMode) (vfs_ok : Bool) :
    OsfsSbInfo × Except Int OsfsInode :=
  if mode = FMode.other then (sb, Except.error (-EINVAL))
  else if sb.nr_free_inodes = 0 ∨ sb.nr_free_blocks = 0 then (sb, Except.error (-ENOSPC))
  else
    let out := osfs_get_free_inode sb
    if out.2 < 0 ∨ Int.ofNat out.1.inode_count ≤ out.2 then (out.1, Except.error (-ENOSPC))
    else if vfs_ok = false then (out.1, Except.error (-ENOMEM))
    else
      let ino := out.2.toNat
      if ino = 0 ∨ out.1.inode_count ≤ ino then (out.1, Except.error (-EIOFault))
      else
        let child : OsfsInode :=
          { i_ino := ino, i_mode := mode, i_size := 0, i_blocks := 0,
            extents := [⟨0, 0⟩, ⟨0, 0⟩, ⟨0, 0⟩, ⟨0, 0⟩], extent_count := 0 }
        let out2 := osfs_alloc_extent out.1 1 child
        if out2.2.2 ≠ 0 then (out2.1, Except.error out2.2.2)
        else
          ({out2.1 with nr_free_inodes := out2.1.nr_free_inodes - 1},
           Except.ok out2.2.1)

/-- Result of osfs_create: superblock, directory data, the parent
directory's inode, and the created child inode or an errno. -/
structure CreateResult where
  sb : OsfsSbInfo
  dents : Nat → OsfsDirEntry
  parent : OsfsInode
  child : Except Int OsfsInode

/-- osfs_create (src/dir.c): validates the name length, calls
osfs_new_inode (which already allocated one initial extent), re-zeroes
i_size and i_blocks, allocates ANOTHER 1-block extent, then overwrites
extent_count with 1, inserts the directory entry, and grows the parent's
size by one entry.  `none` is the fuel exhaustion of the bounded
osfs_add_dir_entry recursion (never reached, see the C8 theorems). -/
def osfs_create (sb : OsfsSbInfo) (dents : Nat → OsfsDirEntry) (parent : OsfsInode)
    (name : String) (name_len : Nat) (mode : FMode) (vfs_ok : Bool) :
    Option CreateResult :=
  if MAX_FILENAME_LEN < name_len then
    some ⟨sb, dents, parent, Except.error (-ENAMETOOLONG)⟩
  else
    match osfs_new_inode sb mode vfs_ok with
    | (sb1, Except.error e) => some ⟨sb1, dents, parent, Except.error e⟩
    | (sb1, Except.ok child0) =>
      let child1 := {child0 with i_size := 0, i_blocks := 0}
      let out := osfs_alloc_extent sb1 1 child1
      if out.2.2 ≠ 0 then some ⟨out.1, dents, parent, Except.error out.2.2⟩
      else
        let child2 := {out.2.1 with extent_count := 1}
        match osfs_add_dir_entry 5 out.1 dents parent child2.i_ino name name_len with
        | none => none
        | some (sb2, dents2, parent2, ret) =>
          if ret ≠ 0 then some ⟨sb2, dents2, parent2, Except.error ret⟩
          else
            let parent3 := {parent2 with i_size := parent2.i_size + DIR_ENTRY_SIZE}
            some ⟨sb2, dents2, parent3, Except.ok child2⟩

/-- C1 scenario: a fresh 4-inode, 4-block volume (inode 0 reserved) whose
counters satisfy the invariant. -/
def c1_sb : OsfsSbInfo :=
  ⟨4, 4, 3, 4, [true, false, false, false], [false, false, false, false]⟩

/-- C2/C7 scenario: a volume with inode 0 reserved and inode 2 holding one
1-block extent at block 0 (the state right after creating an empty file on
a fresh volume). -/
def c2_sb : OsfsSbInfo :=
  ⟨4, 4, 2, 3, [true, true, false, false], [true, false, false, false]⟩

/-- C2/C7 scenario: the freshly created regular file: one extent of one
block at block 0, size 0. -/
def c2_inode : OsfsInode :=
  ⟨2, FMode.reg, 0, 0, [⟨0, 1⟩, ⟨0, 0⟩, ⟨0, 0⟩, ⟨0, 0⟩], 1⟩

/-- C2 scenario: 4097 bytes to write, value 7 on the first block and 9 for
the byte that spills into the second extent. -/
def c2_buf : Nat → Nat := fun k => if k < 4096 then 7 else 9

/-- C2 scenario: write 4097 bytes at offset 0 (forces a second extent). -/
def c2_w : WriteResult := osfs_write c2_sb (fun _ => 0) c2_inode 0 c2_buf 4097

/-- C2 scenario: read the 4097 bytes back at offset 0. -/
def c2_r : ReadResult := osfs_read c2_w.data c2_w.inode (fun _ => 0) 0 4097

/-- C3 witness state: 4 blocks, free blocks 0 and 2 (fragmented: two free
blocks but no free run of length 2). -/
def c3_sb : OsfsSbInfo := ⟨2, 4, 1, 2, [true, true], [false, true, false, true]⟩

/-- C3 witness inode: all 4 extent slots unused. -/
def c3_inode : OsfsInode :=
  ⟨1, FMode.reg, 0, 0, [⟨0, 0⟩, ⟨0, 0⟩, ⟨0, 0⟩, ⟨0, 0⟩], 0⟩

/-- C4 state: 4 free blocks available as a contiguous run. -/
def c4_sb : OsfsSbInfo :=
  ⟨2, 8, 1, 4, [true, true],
   [true, true, true, true, false, false, false, false]⟩

/-- C4 inode: all 4 extent slots in use (after the 4 successful
osfs_alloc_extent calls on blocks 0..3). -/
def c4_full_inode : OsfsInode :=
  ⟨1, FMode.reg, 0, 0, [⟨0, 1⟩, ⟨1, 1⟩, ⟨2, 1⟩, ⟨3, 1⟩], 4⟩

/-- C4 comparison state: fragmented free space (the genuine NoSpace case). -/
def c4_frag_sb : OsfsSbInfo := ⟨2, 4, 1, 2, [true, true], [false, true, false, true]⟩

/-- C4 comparison inode: all extent slots unused. -/
def c4_empty_inode : OsfsInode :=
  ⟨2, FMode.reg, 0, 0, [⟨0, 0⟩, ⟨0, 0⟩, ⟨0, 0⟩, ⟨0, 0⟩], 0⟩

/-- C5 scenario: free inodes exist, nr_free_blocks reads 1 but the block
bitmap is full (a drifted counter; reachable because the source's own
counter updates drift, see C1), so osfs_new_inode passes its pre-check,
reserves inode 1, and then fails the initial extent allocation. -/
def c5_sb : OsfsSbInfo := ⟨4, 2, 3, 1, [true, false, false, false], [true, true]⟩

/-- C6 scenario: fresh volume with the root directory (inode 1) holding
block 0; inodes 0 and 1 in use; everything else free. -/
def c6_sb : OsfsSbInfo :=
  ⟨4, 8, 2, 7, [true, true, false, false],
   [true, false, false, false, false, false, false, false]⟩

/-- C6 scenario: the root directory inode, one 1-block extent at block 0. -/
def c6_parent : OsfsInode :=
  ⟨1, FMode.dir, 0, 0, [⟨0, 1⟩, ⟨0, 0⟩, ⟨0, 0⟩, ⟨0, 0⟩], 1⟩

/-- C6 scenario: an empty directory data region (all slots free). -/
def c6_dents : Nat → OsfsDirEntry := fun _ => ⟨"", 0⟩

/-- C6 scenario: create the file "a" in the root directory. -/
def c6_out : Option CreateResult :=
  osfs_create c6_sb c6_dents c6_parent "a" 1 FMode.reg true

/-- C7 scenario: same fresh file as C2, but with every data block already
allocated (nr_free_blocks 0), so the write's extent growth must fail. -/
def c7_sb : OsfsSbInfo := ⟨4, 4, 2, 0, [true, true, false, false], [true, true, true, true]⟩

/-- C7 scenario: write 4097 bytes of value 5 at offset 0; the first 4096
fit in the single extent, then extent allocation fails. -/
def c7_w : WriteResult := osfs_write c7_sb (fun _ => 0) c2_inode 0 (fun _ => 5) 4097

/-- C8 witness state: the C6 volume (root directory with one extent). -/
def c8_sb : OsfsSbInfo := c6_sb

/-- C8 witness directory data: every slot of block 0 already occupied, so
the insert must grow the directory by a new extent before it finds room. -/
def c8_dents : Nat → OsfsDirEntry := fun a => if a < 16 then ⟨"x", 3⟩ else ⟨"", 0⟩

/-- C8 witness parent: the root directory inode. -/
def c8_parent : OsfsInode := c6_parent

/-- C9 scenario: directory data with a free slot 0 followed by entries
"a" (inode 1) and "b" (inode 2). -/
def c9_dents : Nat → OsfsDirEntry :=
  fun a => if a = 1 then ⟨"a", 1⟩ else if a = 2 then ⟨"b", 2⟩ else ⟨"", 0⟩

/-- C9 scenario: the directory inode, one 1-block extent at block 0. -/
def c9_inode : OsfsInode :=
  ⟨1, FMode.dir, 0, 0, [⟨0, 1⟩, ⟨0, 0⟩, ⟨0, 0⟩, ⟨0, 0⟩], 1⟩

/-- C9: one uninterrupted traversal from pos 0 (ample buffer). -/
def c9_full : List (String × Nat) × Nat × Int := osfs_iterate c9_dents c9_inode 0 100

/-- C9: a traversal from pos 0 whose buffer accepts only 3 entries (the
two dots and "a"), so dir_emit refuses "b" and the caller saves pos. -/
def c9_cut : List (String × Nat) × Nat × Int := osfs_iterate c9_dents c9_inode 0 3

/-- C9: the resumed traversal from the saved position. -/
def c9_resumed : List (String × Nat) × Nat × Int :=
  osfs_iterate c9_dents c9_inode c9_cut.2.1 100

/-- C6: the inode osfs_create hands back for the new file "a": extent_count
says 1 but two extent slots hold blocks (1 and 2). -/
def c6_expected_child : OsfsInode :=
  ⟨2, FMode.reg, 0, 0, [⟨1, 1⟩, ⟨2, 1⟩, ⟨0, 0⟩, ⟨0, 0⟩], 1⟩

/-- One pass of osfs_write's inner loop never lowers i_size (the body only
ever raises it to the advanced *ppos). -/
theorem writePass_size_mono (buf : Nat → Nat) :
    ∀ (exts : List OsfsExtent) (st : WriteSt),
      st.inode.i_size ≤ (writePass buf exts st).inode.i_size := by
  intro exts
  induction exts with
  | nil => intro st; exact le_refl _
  | cons e rest ih =>
    intro st
    simp only [writePass]
    split
    · exact le_refl _
    · split
      · refine le_trans ?_ (ih _)
        simp only
        split
        · omega
        · exact le_refl _
      · exact ih st

/-- A contiguous clear run inside the bitmap bounds makes hasFreeRun true. -/
theorem hasFreeRun_intro (bm : List Bool) (count req s : Nat)
    (hs : s < count) (hle : s + req ≤ count)
    (hfree : ∀ k, k < req → test_bit (s + k) bm = false) :
    hasFreeRun bm count req = true := by
  simp only [hasFreeRun, List.any_eq_true, List.mem_range]
  refine ⟨s, hs, ?_⟩
  simp only [Bool.and_eq_true, decide_eq_true_eq, freeRunAt, List.all_eq_true, List.mem_range]
  exact ⟨hle, fun k hk => by simp [hfree k hk]⟩

/-- If the scan of osfs_alloc_extent succeeds, the block bitmap holds a
single contiguous run of `required` clear bits.  The invariant carried
through the loop: when `consec` is nonzero, the bits [start, start+consec)
are clear and the run ends right before index `i`. -/
theorem allocLoop_success_run (sb : OsfsSbInfo) (required : Nat) (inode : OsfsInode) :
    ∀ fuel i start consec,
      consec < required →
      (consec ≠ 0 → start + consec = i ∧
        ∀ k, k < consec → test_bit (start + k) sb.block_bitmap = false) →
      (osfs_alloc_extent_loop sb required inode i start consec fuel).2.2 = 0 →
      hasFreeRun sb.block_bitmap sb.block_count required = true := by
  intro fuel
  induction fuel with
  | zero =>
    intro i start consec _ _ hres
    simp only [osfs_alloc_extent_loop, ENOSPC] at hres
    omega
  | succ f ih =>
    intro i start consec hlt hinv hres
    simp only [osfs_alloc_extent_loop] at hres
    by_cases h1 : i < sb.block_count
    · rw [if_pos h1] at hres
      by_cases h2 : test_bit i sb.block_bitmap = false
      · rw [if_pos h2] at hres
        by_cases h3 : consec + 1 = required
        · -- the scan is about to succeed (or hit the slot wall); either way
          -- the run [start', start'+required) is clear and in range.
          by_cases hc : consec = 0
          · subst hc
            refine hasFreeRun_intro sb.block_bitmap sb.block_count required i h1 ?_ ?_
            · omega
            · intro k hk
              have hk0 : k = 0 := by omega
              subst hk0
              simpa using h2
          · obtain ⟨hstart, hbits⟩ := hinv hc
            refine hasFreeRun_intro sb.block_bitmap sb.block_count required start ?_ ?_ ?_
            · omega
            · omega
            · intro k hk
              by_cases hkc : k < consec
              · exact hbits k hkc
              · have : k = consec := by omega
                subst this
                rw [hstart]
                exact h2
        · rw [if_neg h3] at hres
          refine ih (i + 1) (if consec = 0 then i else start) (consec + 1) (by omega) ?_ hres
          intro _
          by_cases hc : consec = 0
          · subst hc
            rw [if_pos rfl]
            refine ⟨rfl, ?_⟩
            intro k hk
            have hk0 : k = 0 := by omega
            subst hk0
            simpa using h2
          · obtain ⟨hstart, hbits⟩ := hinv hc
            rw [if_neg hc]
            refine ⟨by omega, ?_⟩
            intro k hk
            by_cases hkc : k < consec
            · exact hbits k hkc
            · have : k = consec := by omega
              subst this
              rw [hstart]
              exact h2
      · rw [if_neg h2] at hres
        exact ih (i + 1) start 0 (by omega) (fun h0 => absurd rfl h0) hres
    · rw [if_neg h1] at hres
      simp only [ENOSPC] at hres
      omega

/-- The scan of osfs_alloc_extent returns 0 or -ENOSPC, nothing else. -/
theorem allocLoop_res_eq (sb : OsfsSbInfo) (required : Nat) (inode : OsfsInode) :
    ∀ fuel i start consec,
      (osfs_alloc_extent_loop sb required inode i start consec fuel).2.2 = 0 ∨
      (osfs_alloc_extent_loop sb required inode i start consec fuel).2.2 = -ENOSPC := by
  intro fuel
  induction fuel with
  | zero => intro i start consec; right; rfl
  | succ f ih =>
    intro i start consec
    simp only [osfs_alloc_extent_loop]
    split
    · split
      · split
        · split
          · left; rfl
          · right; rfl
        · exact ih (i + 1) _ (consec + 1)
      · exact ih (i + 1) start 0
    · right; rfl

/-- A zero-length request never satisfies `consecutive_free_blocks ==
required_blocks` (the counter is checked only after being incremented), so
the scan finishes with -ENOSPC and touches nothing. -/
theorem allocLoop_zero_required (sb : OsfsSbInfo) (inode : OsfsInode) :
    ∀ fuel i start consec,
      osfs_alloc_extent_loop sb 0 inode i start consec fuel = (sb, inode, -ENOSPC) := by
  intro fuel
  induction fuel with
  | zero => intro i start consec; rfl
  | succ f ih =>
    intro i start consec
    simp only [osfs_alloc_extent_loop]
    split
    · split
      · rw [if_neg (Nat.succ_ne_zero consec)]
        exact ih (i + 1) _ (consec + 1)
      · exact ih (i + 1) start 0
    · rfl

/-- With every extent slot in use the scan returns -ENOSPC (the same
errno as the no-contiguous-run case) and changes neither the superblock
nor the inode. -/
theorem allocLoop_slots_full (sb : OsfsSbInfo) (required : Nat) (inode : OsfsInode)
    (h : firstZeroSlot inode.extents = none) :
    ∀ fuel i start consec,
      osfs_alloc_extent_loop sb required inode i start consec fuel = (sb, inode, -ENOSPC) := by
  intro fuel
  induction fuel with
  | zero => intro i start consec; rfl
  | succ f ih =>
    intro i start consec
    simp only [osfs_alloc_extent_loop]
    split
    · split
      · split
        · rw [h]
        · exact ih (i + 1) _ (consec + 1)
      · exact ih (i + 1) start 0
    · rfl

/-- Claim C3: for every state of the block bitmap and every
required_blocks > 0, osfs_alloc_extent succeeds only if a single run of
required_blocks consecutive clear bits exists; when no such contiguous run
exists it fails with -ENOSPC (NoSpace) even when nr_free_blocks is at
least required_blocks (fragmented free space). -/
theorem c3_alloc_extent_requires_contiguous_run (sb : OsfsSbInfo) (required : Nat)
    (inode : OsfsInode) (hreq : 0 < required) :
    ((osfs_alloc_extent sb required inode).2.2 = 0 →
      hasFreeRun sb.block_bitmap sb.block_count required = true) ∧
    (hasFreeRun sb.block_bitmap sb.block_count required = false →
      (required : Int) ≤ sb.nr_free_blocks →
      (osfs_alloc_extent sb required inode).2.2 = -ENOSPC) := by
  constructor
  · intro h
    exact allocLoop_success_run sb required inode sb.block_count 0 0 0 hreq
      (fun h0 => absurd rfl h0) h
  · intro hno _
    rcases allocLoop_res_eq sb required inode sb.block_count 0 0 0 with h | h
    · have hrun := allocLoop_success_run sb required inode sb.block_count 0 0 0 hreq
        (fun h0 => absurd rfl h0) h
      rw [hrun] at hno
      exact absurd hno (by decide)
    · exact h

/-- Witness for C3: four blocks with blocks 0 and 2 free — two free blocks
but no contiguous run of two — make osfs_alloc_extent fail -ENOSPC. -/
theorem c3_witness :
    (0 < 2 ∧ hasFreeRun c3_sb.block_bitmap c3_sb.block_count 2 = false ∧
      (2 : Int) ≤ c3_sb.nr_free_blocks) ∧
    (((osfs_alloc_extent c3_sb 2 c3_inode).2.2 = 0 →
        hasFreeRun c3_sb.block_bitmap c3_sb.block_count 2 = true) ∧
      (hasFreeRun c3_sb.block_bitmap c3_sb.block_count 2 = false →
        (2 : Int) ≤ c3_sb.nr_free_blocks →
        (osfs_alloc_extent c3_sb 2 c3_inode).2.2 = -ENOSPC)) :=
  ⟨⟨by decide, by decide, by decide⟩,
   c3_alloc_extent_requires_contiguous_run c3_sb 2 c3_inode (by decide)⟩

/-- Claim C4 (amended): with all four extent slots of the inode in use,
osfs_alloc_extent fails, but with -ENOSPC — the very same errno as the
NoSpace case, not a distinct error kind — and leaves the superblock and
the inode unchanged; in particular the 5th call on the same inode fails. -/
theorem c4_full_slots_fail_with_enospc (sb : OsfsSbInfo) (required : Nat)
    (inode : OsfsInode) (h : firstZeroSlot inode.extents = none) :
    osfs_alloc_extent sb required inode = (sb, inode, -ENOSPC) :=
  allocLoop_slots_full sb required inode h sb.block_count 0 0 0

/-- Counterexample for C4 as stated: the failure of the 5th
osfs_alloc_extent call on a slot-full inode returns exactly the same error
value (-ENOSPC) as a genuine fragmented-NoSpace failure — the source
distinguishes the two cases only in its log line, not in the returned
error. -/
theorem c4_counterexample_same_errno :
    (osfs_alloc_extent c4_sb 1 c4_full_inode).2.2 = -ENOSPC ∧
    (osfs_alloc_extent c4_frag_sb 2 c4_empty_inode).2.2 = -ENOSPC ∧
    (osfs_alloc_extent c4_sb 1 c4_full_inode).2.2 =
      (osfs_alloc_extent c4_frag_sb 2 c4_empty_inode).2.2 := by
  refine ⟨rfl, rfl, rfl⟩

/-- Witness for C4's amended theorem: a 5th allocation on the slot-full
inode, with a free contiguous run available, fails -ENOSPC unchanged. -/
theorem c4_witness :
    firstZeroSlot c4_full_inode.extents = none ∧
    osfs_alloc_extent c4_sb 1 c4_full_inode = (c4_sb, c4_full_inode, -ENOSPC) :=
  ⟨by decide, c4_full_slots_fail_with_enospc c4_sb 1 c4_full_inode (by decide)⟩

/-- Claim C10: for every filesystem state, osfs_alloc_extent with
required_blocks == 0 always fails with -ENOSPC and changes no state: the
run-length check `consecutive_free_blocks == required_blocks` is evaluated
only after the counter was incremented past zero, so a zero-length request
can never match. -/
theorem c10_zero_required_always_enospc_noop (sb : OsfsSbInfo) (inode : OsfsInode) :
    osfs_alloc_extent sb 0 inode = (sb, inode, -ENOSPC) :=
  allocLoop_zero_required sb inode sb.block_count 0 0 0

/-- Claim C1: refuted on osfs_new_inode.  Starting from a state satisfying
the counter invariant, one successful osfs_new_inode call sets one inode
bitmap bit but decrements nr_free_inodes twice (once inside
osfs_get_free_inode and once more at "Update superblock information"), so
`nr_free_inodes + popcount(inode_bitmap) == inode_count` no longer holds
afterwards. -/
theorem c1_new_inode_double_decrement_breaks_invariant :
    sbInvariant c1_sb ∧
    osfs_new_inode c1_sb FMode.reg true =
      ((⟨4, 4, 1, 3, [true, true, false, false], [true, false, false, false]⟩ : OsfsSbInfo),
       Except.ok ⟨1, FMode.reg, 0, 0, [⟨0, 1⟩, ⟨0, 0⟩, ⟨0, 0⟩, ⟨0, 0⟩], 1⟩) ∧
    ¬ sbInvariant
        ⟨4, 4, 1, 3, [true, true, false, false], [true, false, false, false]⟩ := by
  refine ⟨by decide, rfl, by decide⟩

/-- Claim C2: refuted.  On a fresh file (one 1-block extent at block 0),
writing 4097 bytes at offset 0 grows a second extent at block 1, but the
write path addresses data_blocks + (*ppos - extent_start) while the read
path addresses data_blocks + *ppos: the spilled byte (value 9) lands at
physical byte 0, clobbering the first written byte (value 7), and reading
4097 bytes back returns 9 at offset 0 and 0 at offset 4096 — not the bytes
written. -/
theorem c2_write_read_roundtrip_fails :
    c2_w.res = 4097 ∧ c2_w.inode.i_size = 4097 ∧ c2_w.inode.extent_count = 2 ∧
    c2_buf 0 = 7 ∧ c2_r.bytesRead = 4097 ∧ c2_r.buf 0 = 9 ∧
    c2_buf 4096 = 9 ∧ c2_r.buf 4096 = 0 := by
  exact ⟨rfl, rfl, rfl, rfl, rfl, rfl, rfl, rfl⟩

/-- Claim C5: refuted.  osfs_new_inode reserves inode 1 (bit set,
nr_free_inodes debited by osfs_get_free_inode), then the initial extent
allocation fails -ENOSPC; the call returns the error with the reserved bit
still set and the counter still debited — no rollback on any
post-reservation failure path. -/
theorem c5_reserved_inode_not_rolled_back :
    osfs_new_inode c5_sb FMode.reg true =
      ((⟨4, 2, 2, 1, [true, true, false, false], [true, true]⟩ : OsfsSbInfo),
       Except.error (-ENOSPC)) ∧
    test_bit 1 (osfs_new_inode c5_sb FMode.reg true).1.inode_bitmap = true ∧
    (osfs_new_inode c5_sb FMode.reg true).1.nr_free_inodes =
      c5_sb.nr_free_inodes - 1 := by
  exact ⟨rfl, rfl, rfl⟩

/-- Claim C6: refuted.  Creating file "a" on a fresh volume ends with
extent_count == 1, but TWO extent slots hold blocks (osfs_new_inode
allocated block 1, then osfs_create allocated block 2 and overwrote
extent_count with 1) and the block bitmap gained two set bits, not one. -/
theorem c6_create_allocates_two_extents :
    (c6_out.map fun r => r.child) = some (Except.ok c6_expected_child) ∧
    c6_expected_child.extent_count = 1 ∧
    countNonzeroSlots c6_expected_child.extents = 2 ∧
    (c6_out.map fun r => popcount r.sb.block_bitmap) =
      some (popcount c6_sb.block_bitmap + 2) := by
  exact ⟨rfl, rfl, rfl, rfl⟩

/-- Claim C9: refuted.  The inner loop of osfs_iterate restarts at
ctx->pos - 2 in every extent, and skipped free slots do not advance
ctx->pos, so slot index and cursor drift apart: an uninterrupted traversal
of a directory (free slot 0, then "a", "b") emits each entry once, but
stopping after "a" (saved pos 3) and resuming re-emits "a" — the resumed
tail differs from the uninterrupted traversal's tail. -/
theorem c9_resumed_traversal_diverges :
    c9_full.1 = [(".", 1), ("..", 0), ("a", 1), ("b", 2)] ∧
    c9_cut.1 = [(".", 1), ("..", 0), ("a", 1)] ∧ c9_cut.2.1 = 3 ∧
    c9_resumed.1 = [("a", 1), ("b", 2)] ∧
    c9_resumed.1 ≠ c9_full.1.drop 3 := by
  refine ⟨rfl, rfl, rfl, rfl, by decide⟩

/-- The extent scan never touches the inode's size. -/
theorem allocLoop_inode_size (sb : OsfsSbInfo) (required : Nat) (inode : OsfsInode) :
    ∀ fuel i start consec,
      (osfs_alloc_extent_loop sb required inode i start consec fuel).2.1.i_size =
        inode.i_size := by
  intro fuel
  induction fuel with
  | zero => intro i start consec; rfl
  | succ f ih =>
    intro i start consec
    simp only [osfs_alloc_extent_loop]
    split
    · split
      · split
        · split
          · rfl
          · rfl
        · exact ih (i + 1) _ (consec + 1)
      · exact ih (i + 1) start 0
    · rfl

/-- osfs_alloc_extent never touches the inode's size. -/
theorem alloc_extent_inode_size (sb : OsfsSbInfo) (required : Nat) (inode : OsfsInode) :
    (osfs_alloc_extent sb required inode).2.1.i_size = inode.i_size :=
  allocLoop_inode_size sb required inode sb.block_count 0 0 0

/-- The outer loop of osfs_write never lowers i_size, whatever it returns
(success, errno, or fuel exhaustion). -/
theorem writeLoop_size_mono (buf : Nat → Nat) :
    ∀ (fuel : Nat) (sb : OsfsSbInfo) (st : WriteSt),
      st.inode.i_size ≤ (osfs_write_loop buf sb st fuel).inode.i_size := by
  intro fuel
  induction fuel with
  | zero => intro sb st; exact le_refl _
  | succ f ih =>
    intro sb st
    simp only [osfs_write_loop]
    split
    · exact le_refl _
    · have h1 := writePass_size_mono buf (st.inode.extents.take st.inode.extent_count) st
      set st' := writePass buf (st.inode.extents.take st.inode.extent_count) st
      split
      · exact le_trans h1 (ih sb st')
      · have h2 := alloc_extent_inode_size sb 1 st'.inode
        split
        · dsimp only
          omega
        · have h3 := ih (osfs_alloc_extent sb 1 st'.inode).1
            {st' with inode := (osfs_alloc_extent sb 1 st'.inode).2.1}
          dsimp only at h3
          omega

/-- osfs_write never lowers i_size: each copied chunk only raises it, and
no failure path rolls it back. -/
theorem osfs_write_size_mono (sb : OsfsSbInfo) (data : Nat → Nat) (inode : OsfsInode)
    (ppos : Nat) (buf : Nat → Nat) (len : Nat) :
    inode.i_size ≤ (osfs_write sb data inode ppos buf len).inode.i_size := by
  simp only [osfs_write]
  split
  · have h2 := alloc_extent_inode_size sb 1 inode
    split
    · dsimp only
      omega
    · have h3 := writeLoop_size_mono buf 8 (osfs_alloc_extent sb 1 inode).1
        ⟨data, ppos, 0, len, {(osfs_alloc_extent sb 1 inode).2.1 with extent_count := 1}⟩
      dsimp only at h3
      omega
  · exact writeLoop_size_mono buf 8 sb ⟨data, ppos, 0, len, inode⟩

/-- At most as many unused extent slots as slots. -/
theorem countZeroSlots_le_length (l : List OsfsExtent) : countZeroSlots l ≤ l.length :=
  List.countP_le_length _

/-- Writing a used extent into the first unused slot lowers the number of
unused slots by exactly one. -/
theorem firstZeroSlot_set_count :
    ∀ (l : List OsfsExtent) (idx : Nat), firstZeroSlot l = some idx →
      ∀ (x : OsfsExtent), x.block_count ≠ 0 →
        countZeroSlots (l.set idx x) + 1 = countZeroSlots l := by
  intro l
  induction l with
  | nil => intro idx h; simp [firstZeroSlot] at h
  | cons e rest ih =>
    intro idx h x hx
    by_cases he : e.block_count = 0
    · have hidx : idx = 0 := by
        simp [firstZeroSlot, he] at h
        omega
      subst hidx
      simp [countZeroSlots, List.countP_cons, he, hx]
    · have hrest : ∃ j, firstZeroSlot rest = some j ∧ idx = j + 1 := by
        simp only [firstZeroSlot, if_neg he, Option.map_eq_some'] at h
        obtain ⟨j, hj, hji⟩ := h
        exact ⟨j, hj, hji.symm⟩
      obtain ⟨j, hj, rfl⟩ := hrest
      simp only [List.set_cons_succ, countZeroSlots, List.countP_cons] at *
      have := ih j hj x hx
      omega

/-- A successful osfs_alloc_extent consumes exactly one unused extent slot
of the inode. -/
theorem allocLoop_success_zero_slots (sb : OsfsSbInfo) (required : Nat) (inode : OsfsInode) :
    ∀ fuel i start consec,
      (osfs_alloc_extent_loop sb required inode i start consec fuel).2.2 = 0 →
      countZeroSlots
          (osfs_alloc_extent_loop sb required inode i start consec fuel).2.1.extents + 1 =
        countZeroSlots inode.extents := by
  intro fuel
  induction fuel with
  | zero =>
    intro i start consec hres
    simp only [osfs_alloc_extent_loop, ENOSPC] at hres
    omega
  | succ f ih =>
    intro i start consec hres
    simp only [osfs_alloc_extent_loop] at hres ⊢
    by_cases h1 : i < sb.block_count
    · rw [if_pos h1] at hres ⊢
      by_cases h2 : test_bit i sb.block_bitmap = false
      · rw [if_pos h2] at hres ⊢
        by_cases h3 : consec + 1 = required
        · rw [if_pos h3] at hres ⊢
          cases h4 : firstZeroSlot inode.extents with
          | none =>
            rw [h4] at hres
            simp only [ENOSPC] at hres
            omega
          | some idx =>
            dsimp only
            refine firstZeroSlot_set_count inode.extents idx h4 ⟨_, required⟩ ?_
            show required ≠ 0
            omega
        · rw [if_neg h3] at hres ⊢
          exact ih (i + 1) _ (consec + 1) hres
      · rw [if_neg h2] at hres ⊢
        exact ih (i + 1) start 0 hres
    · rw [if_neg h1] at hres
      simp only [ENOSPC] at hres
      omega

/-- Wrapper form of the slot-consumption lemma. -/
theorem alloc_extent_success_zero_slots (sb : OsfsSbInfo) (required : Nat)
    (inode : OsfsInode) (h : (osfs_alloc_extent sb required inode).2.2 = 0) :
    countZeroSlots (osfs_alloc_extent sb required inode).2.1.extents + 1 =
      countZeroSlots inode.extents :=
  allocLoop_success_zero_slots sb required inode sb.block_count 0 0 0 h

/-- Fuel adequacy of the osfs_add_dir_entry recursion: each recursive call
happens only after a successful extent allocation, which consumes one of
the inode's unused extent slots, so any fuel exceeding the number of
unused slots is never exhausted. -/
theorem add_dir_entry_fuel_sufficient :
    ∀ (fuel : Nat) (sb : OsfsSbInfo) (dents : Nat → OsfsDirEntry) (parent : OsfsInode)
      (ino_no : Nat) (name : String) (name_len : Nat),
      countZeroSlots parent.extents < fuel →
      osfs_add_dir_entry fuel sb dents parent ino_no name name_len ≠ none := by
  intro fuel
  induction fuel with
  | zero => intro sb dents parent ino_no name name_len h; omega
  | succ f ih =>
    intro sb dents parent ino_no name name_len h
    simp only [osfs_add_dir_entry]
    split
    · simp
    · split
      · simp
      · split
        · simp
        · rename_i hsucc
          have hz : (osfs_alloc_extent sb 1 parent).2.2 = 0 := not_not.mp hsucc
          have hcount := alloc_extent_success_zero_slots sb 1 parent hz
          exact ih _ dents _ ino_no name name_len (by omega)

/-- With a legal name length, osfs_add_dir_entry ends in success (0) or in
the -ENOSPC of a failed extent allocation — never in any other value. -/
theorem add_dir_entry_result :
    ∀ (fuel : Nat) (sb : OsfsSbInfo) (dents : Nat → OsfsDirEntry) (parent : OsfsInode)
      (ino_no : Nat) (name : String) (name_len : Nat)
      (sb' : OsfsSbInfo) (d' : Nat → OsfsDirEntry) (p' : OsfsInode) (r : Int),
      name_len ≤ MAX_FILENAME_LEN →
      osfs_add_dir_entry fuel sb dents parent ino_no name name_len = some (sb', d', p', r) →
      r = 0 ∨ r = -ENOSPC := by
  intro fuel
  induction fuel with
  | zero => intro sb dents parent ino_no name name_len sb' d' p' r _ h; simp [osfs_add_dir_entry] at h
  | succ f ih =>
    intro sb dents parent ino_no name name_len sb' d' p' r hlen h
    simp only [osfs_add_dir_entry] at h
    rw [if_neg (by omega)] at h
    split at h
    · simp only [Option.some.injEq, Prod.mk.injEq] at h
      left
      exact h.2.2.2.symm
    · split at h
      · rename_i hfail
        simp only [Option.some.injEq, Prod.mk.injEq] at h
        rcases allocLoop_res_eq sb 1 parent sb.block_count 0 0 0 with h0 | h0
        · exact absurd h0 (by simpa using hfail)
        · right
          rw [← h.2.2.2]
          exact h0
      · exact ih _ dents _ ino_no name name_len sb' d' p' r hlen h

/-- Claim C8: for every directory inode (with its fixed 4-slot extent
array) and every name within MAX_FILENAME_LEN, osfs_add_dir_entry
terminates within the fuel bound implied by the 4-extent cap (each
grow-and-retry round consumes an extent slot, so 5 rounds always
suffice), ending in success or in the allocator's -ENOSPC (the value the
source returns both for NoSpace and for exhausted extent slots). -/
theorem c8_add_dir_entry_terminates (sb : OsfsSbInfo) (dents : Nat → OsfsDirEntry)
    (parent : OsfsInode) (ino_no : Nat) (name : String) (name_len : Nat)
    (hlen : name_len ≤ MAX_FILENAME_LEN) (hext : parent.extents.length = 4) :
    ∃ out, osfs_add_dir_entry 5 sb dents parent ino_no name name_len = some out ∧
      (out.2.2.2 = 0 ∨ out.2.2.2 = -ENOSPC) := by
  have h5 : countZeroSlots parent.extents < 5 := by
    have := countZeroSlots_le_length parent.extents
    omega
  cases hout : osfs_add_dir_entry 5 sb dents parent ino_no name name_len with
  | none =>
    exact absurd hout (add_dir_entry_fuel_sufficient 5 sb dents parent ino_no name name_len h5)
  | some out =>
    obtain ⟨sb', d', p', r⟩ := out
    exact ⟨(sb', d', p', r), rfl, add_dir_entry_result 5 sb dents parent ino_no name name_len
      sb' d' p' r hlen hout⟩

/-- Witness for C8: inserting "b" into a root directory whose single
extent is full grows the directory by one extent and succeeds. -/
theorem c8_witness :
    (1 ≤ MAX_FILENAME_LEN ∧ c8_parent.extents.length = 4) ∧
    ∃ out, osfs_add_dir_entry 5 c8_sb c8_dents c8_parent 2 "b" 1 = some out ∧
      (out.2.2.2 = 0 ∨ out.2.2.2 = -ENOSPC) :=
  ⟨⟨by decide, by decide⟩,
   c8_add_dir_entry_terminates c8_sb c8_dents c8_parent 2 "b" 1 (by decide) (by decide)⟩

/-- Counterexample for C7 as stated: a write of 4097 bytes onto a file
with one 1-block extent and no free blocks commits 4096 bytes, then the
extent allocation fails, and the call returns -ENOSPC — an error code, not
the partial total 4096 the claim promises. -/
theorem c7_counterexample_returns_errno_not_count :
    c7_w.res = -ENOSPC ∧ c7_w.res < 0 ∧ ¬ c7_w.res = 4096 := by
  refine ⟨rfl, by decide, by decide⟩

/-- A failing scan of osfs_alloc_extent returns the untouched superblock
and inode together with -ENOSPC. -/
theorem allocLoop_fail_unchanged (sb : OsfsSbInfo) (required : Nat) (inode : OsfsInode) :
    ∀ fuel i start consec,
      (osfs_alloc_extent_loop sb required inode i start consec fuel).2.2 ≠ 0 →
      osfs_alloc_extent_loop sb required inode i start consec fuel =
        (sb, inode, -ENOSPC) := by
  intro fuel
  induction fuel with
  | zero => intro i start consec _; rfl
  | succ f ih =>
    intro i start consec h
    simp only [osfs_alloc_extent_loop] at h ⊢
    by_cases h1 : i < sb.block_count
    · rw [if_pos h1] at h ⊢
      by_cases h2 : test_bit i sb.block_bitmap = false
      · rw [if_pos h2] at h ⊢
        by_cases h3 : consec + 1 = required
        · rw [if_pos h3] at h ⊢
          cases h4 : firstZeroSlot inode.extents with
          | some idx =>
            rw [h4] at h
            dsimp only at h
            exact absurd rfl h
          | none => rfl
        · rw [if_neg h3] at h ⊢
          exact ih (i + 1) _ (consec + 1) h
      · rw [if_neg h2] at h ⊢
        exact ih (i + 1) start 0 h
    · rw [if_neg h1]

/-- A failed osfs_alloc_extent changes neither the superblock nor the
inode and returns -ENOSPC. -/
theorem alloc_extent_fail_unchanged (sb : OsfsSbInfo) (required : Nat) (inode : OsfsInode)
    (h : (osfs_alloc_extent sb required inode).2.2 ≠ 0) :
    osfs_alloc_extent sb required inode = (sb, inode, -ENOSPC) :=
  allocLoop_fail_unchanged sb required inode sb.block_count 0 0 0 h

/-- The write loop with nothing left to copy returns at once. -/
theorem writeLoop_len_zero (buf : Nat → Nat) (sb : OsfsSbInfo) (st : WriteSt)
    (h : st.len = 0) :
    ∀ fuel, osfs_write_loop buf sb st fuel =
      ⟨sb, st.data, st.inode, st.ppos, Int.ofNat st.written⟩ := by
  intro fuel
  cases fuel with
  | zero => rfl
  | succ f =>
    simp only [osfs_write_loop]
    rw [if_pos h]

/-- Unfolding equation of one extent step of osfs_write's inner loop, in
terms of `writeChunk`. -/
theorem writePass_cons (buf : Nat → Nat) (e : OsfsExtent) (rest : List OsfsExtent)
    (st : WriteSt) :
    writePass buf (e :: rest) st =
      if st.len = 0 then st
      else if e.start_block * BLOCK_SIZE ≤ st.ppos ∧
          st.ppos < e.start_block * BLOCK_SIZE + e.block_count * BLOCK_SIZE then
        writePass buf rest (writeChunk buf e st)
      else writePass buf rest st := rfl

/-- A pass with an empty byte budget walks the extents without touching
anything. -/
theorem writePass_budget_zero (buf : Nat → Nat) :
    ∀ (exts : List OsfsExtent) (st : WriteSt), st.len = 0 → writePass buf exts st = st := by
  intro exts
  induction exts with
  | nil => intro st _; rfl
  | cons e rest _ =>
    intro st h
    simp only [writePass]
    rw [if_pos h]

/-- A pass never increases the bytes left to copy. -/
theorem writePass_len_le (buf : Nat → Nat) :
    ∀ (exts : List OsfsExtent) (st : WriteSt), (writePass buf exts st).len ≤ st.len := by
  intro exts
  induction exts with
  | nil => intro st; exact le_refl _
  | cons e rest ih =>
    intro st
    simp only [writePass]
    split
    · exact le_refl _
    · split
      · refine le_trans (ih _) ?_
        dsimp only
        omega
      · exact ih st

/-- A pass moves bytes from `len` to `written` one for one: their sum is
invariant. -/
theorem writePass_sum (buf : Nat → Nat) :
    ∀ (exts : List OsfsExtent) (st : WriteSt),
      (writePass buf exts st).written + (writePass buf exts st).len =
        st.written + st.len := by
  intro exts
  induction exts with
  | nil => intro st; rfl
  | cons e rest ih =>
    intro st
    simp only [writePass]
    split
    · rfl
    · split
      · rename_i hlen hin
        have h := ih ⟨fun a =>
            if st.ppos - e.start_block * BLOCK_SIZE ≤ a ∧
                a < st.ppos - e.start_block * BLOCK_SIZE +
                  min st.len (e.start_block * BLOCK_SIZE +
                    e.block_count * BLOCK_SIZE - st.ppos) then
              buf (st.written + (a - (st.ppos - e.start_block * BLOCK_SIZE)))
            else st.data a,
          st.ppos + min st.len (e.start_block * BLOCK_SIZE +
            e.block_count * BLOCK_SIZE - st.ppos),
          st.written + min st.len (e.start_block * BLOCK_SIZE +
            e.block_count * BLOCK_SIZE - st.ppos),
          st.len - min st.len (e.start_block * BLOCK_SIZE +
            e.block_count * BLOCK_SIZE - st.ppos),
          {st.inode with i_size :=
            if st.inode.i_size < st.ppos + min st.len (e.start_block * BLOCK_SIZE +
                e.block_count * BLOCK_SIZE - st.ppos) then
              st.ppos + min st.len (e.start_block * BLOCK_SIZE +
                e.block_count * BLOCK_SIZE - st.ppos)
            else st.inode.i_size}⟩
        dsimp only at h
        have hmin : min st.len (e.start_block * BLOCK_SIZE +
            e.block_count * BLOCK_SIZE - st.ppos) ≤ st.len := min_le_left _ _
        omega
      · exact ih st

/-- A pass that copied nothing (its `len` did not move) left the whole
state untouched. -/
theorem writePass_len_eq_id (buf : Nat → Nat) :
    ∀ (exts : List OsfsExtent) (st : WriteSt),
      (writePass buf exts st).len = st.len → writePass buf exts st = st := by
  intro exts
  induction exts with
  | nil => intro st _; rfl
  | cons e rest ih =>
    intro st h
    rw [writePass_cons] at h ⊢
    by_cases h0 : st.len = 0
    · rw [if_pos h0]
    · rw [if_neg h0] at h ⊢
      by_cases hin : e.start_block * BLOCK_SIZE ≤ st.ppos ∧
          st.ppos < e.start_block * BLOCK_SIZE + e.block_count * BLOCK_SIZE
      · rw [if_pos hin] at h
        exfalso
        obtain ⟨hin1, hin2⟩ := hin
        have hle := writePass_len_le buf rest (writeChunk buf e st)
        have hck : (writeChunk buf e st).len =
            st.len - min st.len (e.start_block * BLOCK_SIZE +
              e.block_count * BLOCK_SIZE - st.ppos) := rfl
        have hpos : 0 < min st.len (e.start_block * BLOCK_SIZE +
            e.block_count * BLOCK_SIZE - st.ppos) :=
          lt_min_iff.mpr ⟨by omega, by omega⟩
        omega
      · rw [if_neg hin] at h ⊢
        exact ih st h

/-- The byte count of one copy chunk comes off the remaining length. -/
theorem writeChunk_len (buf : Nat → Nat) (e : OsfsExtent) (st : WriteSt) :
    (writeChunk buf e st).len =
      st.len - min st.len (e.start_block * BLOCK_SIZE +
        e.block_count * BLOCK_SIZE - st.ppos) := rfl

/-- A copy chunk depends on the remaining length only through the chunk
size: two budgets with the same chunk size produce the same chunk, up to
the leftover length. -/
theorem writeChunk_set_len (buf : Nat → Nat) (e : OsfsExtent) (st : WriteSt) (L : Nat)
    (h : min L (e.start_block * BLOCK_SIZE + e.block_count * BLOCK_SIZE - st.ppos) =
      min st.len (e.start_block * BLOCK_SIZE + e.block_count * BLOCK_SIZE - st.ppos)) :
    writeChunk buf e {st with len := L} =
      {writeChunk buf e st with
        len := L - min st.len (e.start_block * BLOCK_SIZE +
          e.block_count * BLOCK_SIZE - st.ppos)} := by
  obtain ⟨d, p, w, l, ino⟩ := st
  dsimp only [writeChunk] at h ⊢
  simp only [h]

/-- Truncating the byte budget of a pass to exactly cover its copied
chunks (plus a leftover m' within what the pass left over) reproduces the
same pass with the leftover as the remaining length: the chunks of a pass
that ends with bytes still to copy are all extent-filling, so they do not
depend on the exact budget. -/
theorem writePass_truncate (buf : Nat → Nat) :
    ∀ (exts : List OsfsExtent) (st : WriteSt) (m' : Nat),
      (writePass buf exts st).len ≠ 0 → m' ≤ (writePass buf exts st).len →
      writePass buf exts {st with len := st.len - (writePass buf exts st).len + m'} =
        {writePass buf exts st with len := m'} := by
  intro exts
  induction exts with
  | nil =>
    intro st m' _ _
    simp only [writePass]
    rw [show st.len - st.len + m' = m' from by omega]
  | cons e rest ih =>
    intro st m' hne hm'
    by_cases h0 : st.len = 0
    · exfalso
      rw [writePass_cons, if_pos h0] at hne
      exact hne h0
    · by_cases hin : e.start_block * BLOCK_SIZE ≤ st.ppos ∧
          st.ppos < e.start_block * BLOCK_SIZE + e.block_count * BLOCK_SIZE
      · have hA : writePass buf (e :: rest) st =
            writePass buf rest (writeChunk buf e st) := by
          rw [writePass_cons, if_neg h0, if_pos hin]
        rw [hA] at hne hm' ⊢
        have hle := writePass_len_le buf rest (writeChunk buf e st)
        rw [writeChunk_len] at hle
        have hminle : min st.len (e.start_block * BLOCK_SIZE +
            e.block_count * BLOCK_SIZE - st.ppos) ≤ st.len := min_le_left _ _
        have hmlt : min st.len (e.start_block * BLOCK_SIZE +
            e.block_count * BLOCK_SIZE - st.ppos) < st.len := by omega
        obtain ⟨hin1, hin2⟩ := hin
        have hK : st.len - (writePass buf rest (writeChunk buf e st)).len + m' ≠ 0 := by
          omega
        rw [writePass_cons, if_neg hK, if_pos ⟨hin1, hin2⟩]
        have ht : min (st.len - (writePass buf rest (writeChunk buf e st)).len + m')
            (e.start_block * BLOCK_SIZE + e.block_count * BLOCK_SIZE - st.ppos) =
            min st.len (e.start_block * BLOCK_SIZE +
              e.block_count * BLOCK_SIZE - st.ppos) := by
          omega
        rw [writeChunk_set_len buf e st _ ht]
        rw [show st.len - (writePass buf rest (writeChunk buf e st)).len + m' -
            min st.len (e.start_block * BLOCK_SIZE +
              e.block_count * BLOCK_SIZE - st.ppos) =
            (writeChunk buf e st).len -
              (writePass buf rest (writeChunk buf e st)).len + m'
          from by rw [writeChunk_len]; omega]
        exact ih (writeChunk buf e st) m' hne hm'
      · have hA : writePass buf (e :: rest) st = writePass buf rest st := by
          rw [writePass_cons, if_neg h0, if_neg hin]
        rw [hA] at hne hm' ⊢
        by_cases hK : st.len - (writePass buf rest st).len + m' = 0
        · have hle := writePass_len_le buf rest st
          have hlen : (writePass buf rest st).len = st.len := by omega
          have hid := writePass_len_eq_id buf rest st hlen
          have hm'0 : m' = 0 := by omega
          rw [writePass_cons, if_pos hK, hid, hm'0]
          rw [show st.len - st.len + 0 = 0 from by omega]
        · rw [writePass_cons, if_neg hK, if_neg hin]
          exact ih st m' hne hm'

/-- Unfolding equation of one iteration of osfs_write's outer loop. -/
theorem writeLoop_succ (buf : Nat → Nat) (sb : OsfsSbInfo) (st : WriteSt) (f : Nat) :
    osfs_write_loop buf sb st (f + 1) =
      if st.len = 0 then ⟨sb, st.data, st.inode, st.ppos, Int.ofNat st.written⟩
      else
        if (writePass buf (st.inode.extents.take st.inode.extent_count) st).len = 0 then
          osfs_write_loop buf sb
            (writePass buf (st.inode.extents.take st.inode.extent_count) st) f
        else
          if (osfs_alloc_extent sb 1
              (writePass buf (st.inode.extents.take st.inode.extent_count) st).inode).2.2
              ≠ 0 then
            ⟨(osfs_alloc_extent sb 1
                (writePass buf (st.inode.extents.take st.inode.extent_count) st).inode).1,
             (writePass buf (st.inode.extents.take st.inode.extent_count) st).data,
             (osfs_alloc_extent sb 1
                (writePass buf (st.inode.extents.take st.inode.extent_count) st).inode).2.1,
             (writePass buf (st.inode.extents.take st.inode.extent_count) st).ppos,
             (osfs_alloc_extent sb 1
                (writePass buf (st.inode.extents.take st.inode.extent_count) st).inode).2.2⟩
          else
            osfs_write_loop buf
              (osfs_alloc_extent sb 1
                (writePass buf (st.inode.extents.take st.inode.extent_count) st).inode).1
              {writePass buf (st.inode.extents.take st.inode.extent_count) st with
                inode := (osfs_alloc_extent sb 1
                  (writePass buf
                    (st.inode.extents.take st.inode.extent_count) st).inode).2.1} f := rfl

/-- Unfolding equation of osfs_write's wrapper. -/
theorem osfs_write_eq (sb : OsfsSbInfo) (data : Nat → Nat) (inode : OsfsInode)
    (ppos : Nat) (buf : Nat → Nat) (len : Nat) :
    osfs_write sb data inode ppos buf len =
      if inode.extent_count = 0 then
        if (osfs_alloc_extent sb 1 inode).2.2 ≠ 0 then
          ⟨(osfs_alloc_extent sb 1 inode).1, data, (osfs_alloc_extent sb 1 inode).2.1,
           ppos, (osfs_alloc_extent sb 1 inode).2.2⟩
        else
          osfs_write_loop buf (osfs_alloc_extent sb 1 inode).1
            ⟨data, ppos, 0, len, {(osfs_alloc_extent sb 1 inode).2.1 with extent_count := 1}⟩ 8
      else osfs_write_loop buf sb ⟨data, ppos, 0, len, inode⟩ 8 := rfl

/-- A failing run of osfs_write's outer loop returns -ENOSPC, and its
final data region, file position and size are exactly those of the
successful run whose byte budget is the partial total the failing run
managed to copy: the committed prefix is never rolled back, only the
return value differs. -/
theorem writeLoop_fail_prefix (buf : Nat → Nat) :
    ∀ (fuel : Nat) (sb : OsfsSbInfo) (st : WriteSt),
      (osfs_write_loop buf sb st fuel).res < 0 →
      (osfs_write_loop buf sb st fuel).res = -ENOSPC ∧
      ∃ m, m ≤ st.len ∧
        (osfs_write_loop buf sb {st with len := m} fuel).res =
          Int.ofNat (st.written + m) ∧
        (osfs_write_loop buf sb {st with len := m} fuel).data =
          (osfs_write_loop buf sb st fuel).data ∧
        (osfs_write_loop buf sb {st with len := m} fuel).ppos =
          (osfs_write_loop buf sb st fuel).ppos ∧
        (osfs_write_loop buf sb {st with len := m} fuel).inode.i_size =
          (osfs_write_loop buf sb st fuel).inode.i_size := by
  intro fuel
  induction fuel with
  | zero =>
    intro sb st hres
    exact absurd hres (not_lt.mpr (Int.ofNat_nonneg st.written))
  | succ f ih =>
    intro sb st hres
    by_cases h0 : st.len = 0
    · exfalso
      rw [writeLoop_len_zero buf sb st h0] at hres
      exact absurd hres (not_lt.mpr (Int.ofNat_nonneg st.written))
    · rw [writeLoop_succ, if_neg h0] at hres
      set st' := writePass buf (st.inode.extents.take st.inode.extent_count) st with hst'
      by_cases h1 : st'.len = 0
      · exfalso
        rw [if_pos h1, writeLoop_len_zero buf sb st' h1] at hres
        exact absurd hres (not_lt.mpr (Int.ofNat_nonneg st'.written))
      · rw [if_neg h1] at hres
        have hle : st'.len ≤ st.len := by
          rw [hst']; exact writePass_len_le buf _ st
        have hsum : st'.written + st'.len = st.written + st.len := by
          rw [hst']; exact writePass_sum buf _ st
        by_cases h2 : (osfs_alloc_extent sb 1 st'.inode).2.2 ≠ 0
        · -- the allocation fails right after this pass
          have hfail := alloc_extent_fail_unchanged sb 1 st'.inode h2
          have hRun : osfs_write_loop buf sb st (f + 1) =
              ⟨sb, st'.data, st'.inode, st'.ppos, -ENOSPC⟩ := by
            rw [writeLoop_succ, if_neg h0, ← hst', if_neg h1, if_pos h2, hfail]
          rw [hRun]
          by_cases hm0 : st.len - st'.len = 0
          · have hlen2 : (writePass buf (st.inode.extents.take st.inode.extent_count) st).len
                = st.len := by rw [← hst']; omega
            have hid : st' = st := hst'.trans (writePass_len_eq_id buf _ st hlen2)
            have hQ := writeLoop_len_zero buf sb {st with len := st.len - st'.len} hm0 (f + 1)
            refine ⟨rfl, st.len - st'.len, by omega, ?_, ?_, ?_, ?_⟩
            · rw [hQ]; dsimp only
              exact congrArg Int.ofNat (by omega)
            · rw [hQ]; dsimp only; rw [hid]
            · rw [hQ]; dsimp only; rw [hid]
            · rw [hQ]; dsimp only; rw [hid]
          · have hT := writePass_truncate buf (st.inode.extents.take st.inode.extent_count) st 0
              (by rw [← hst']; exact h1) (Nat.zero_le _)
            rw [← hst'] at hT
            rw [show st.len - st'.len + 0 = st.len - st'.len from rfl] at hT
            have hQ : osfs_write_loop buf sb {st with len := st.len - st'.len} (f + 1) =
                ⟨sb, st'.data, st'.inode, st'.ppos, Int.ofNat st'.written⟩ := by
              rw [writeLoop_succ, if_neg hm0]
              dsimp only
              rw [hT, if_pos (show ({st' with len := 0} : WriteSt).len = 0 from rfl)]
              exact writeLoop_len_zero buf sb {st' with len := 0} rfl f
            refine ⟨rfl, st.len - st'.len, by omega, ?_, ?_, ?_, ?_⟩
            · rw [hQ]; dsimp only
              exact congrArg Int.ofNat (by omega)
            · rw [hQ]
            · rw [hQ]
            · rw [hQ]
        · -- the allocation succeeds; recurse
          rw [if_neg h2] at hres
          obtain ⟨hRres, m', hm'le0, hQ'res0, hQ'data0, hQ'ppos0, hQ'size0⟩ :=
            ih (osfs_alloc_extent sb 1 st'.inode).1
              {st' with inode := (osfs_alloc_extent sb 1 st'.inode).2.1} hres
          have hm'le : m' ≤ st'.len := hm'le0
          have hRun : osfs_write_loop buf sb st (f + 1) =
              osfs_write_loop buf (osfs_alloc_extent sb 1 st'.inode).1
                {st' with inode := (osfs_alloc_extent sb 1 st'.inode).2.1} f := by
            rw [writeLoop_succ, if_neg h0, ← hst', if_neg h1, if_neg h2]
          rw [hRun]
          have hsize_alloc : (osfs_alloc_extent sb 1 st'.inode).2.1.i_size =
              st'.inode.i_size := alloc_extent_inode_size sb 1 st'.inode
          by_cases hm'0 : m' = 0
          · -- leftover budget 0: the shadow run stops right after the pass
            subst hm'0
            have hQ'val := writeLoop_len_zero buf (osfs_alloc_extent sb 1 st'.inode).1
              {{st' with inode := (osfs_alloc_extent sb 1 st'.inode).2.1} with len := 0} rfl f
            rw [hQ'val] at hQ'data0 hQ'ppos0 hQ'size0
            dsimp only at hQ'data0 hQ'ppos0 hQ'size0
            by_cases hm0 : st.len - st'.len = 0
            · have hlen2 : (writePass buf (st.inode.extents.take st.inode.extent_count) st).len
                  = st.len := by rw [← hst']; omega
              have hid : st' = st := hst'.trans (writePass_len_eq_id buf _ st hlen2)
              have hQ := writeLoop_len_zero buf sb
                {st with len := st.len - st'.len + 0}
                (show st.len - st'.len + 0 = 0 by omega) (f + 1)
              refine ⟨hRres, st.len - st'.len + 0, by omega, ?_, ?_, ?_, ?_⟩
              · rw [hQ]; dsimp only
                exact congrArg Int.ofNat (by omega)
              · rw [hQ]; dsimp only; rw [← hid]; exact hQ'data0
              · rw [hQ]; dsimp only; rw [← hid]; exact hQ'ppos0
              · rw [hQ]; dsimp only
                rw [← hid, ← hsize_alloc]; exact hQ'size0
            · have hT := writePass_truncate buf
                (st.inode.extents.take st.inode.extent_count) st 0
                (by rw [← hst']; exact h1) (Nat.zero_le _)
              rw [← hst'] at hT
              have hQ : osfs_write_loop buf sb
                  {st with len := st.len - st'.len + 0} (f + 1) =
                  ⟨sb, st'.data, st'.inode, st'.ppos, Int.ofNat st'.written⟩ := by
                rw [writeLoop_succ, if_neg (show ¬ (st.len - st'.len + 0 = 0) by omega)]
                dsimp only
                rw [hT, if_pos (show ({st' with len := 0} : WriteSt).len = 0 from rfl)]
                exact writeLoop_len_zero buf sb {st' with len := 0} rfl f
              refine ⟨hRres, st.len - st'.len + 0, by omega, ?_, ?_, ?_, ?_⟩
              · rw [hQ]; dsimp only
                exact congrArg Int.ofNat (by omega)
              · rw [hQ]; dsimp only; exact hQ'data0
              · rw [hQ]; dsimp only; exact hQ'ppos0
              · rw [hQ]; dsimp only
                rw [hsize_alloc] at hQ'size0; exact hQ'size0
          · -- leftover budget m' > 0: the shadow run re-runs the same allocation
            have hm0 : ¬ (st.len - st'.len + m' = 0) := by omega
            have hT := writePass_truncate buf
              (st.inode.extents.take st.inode.extent_count) st m'
              (by rw [← hst']; exact h1) (by rw [← hst']; exact hm'le)
            rw [← hst'] at hT
            have hQ : osfs_write_loop buf sb
                {st with len := st.len - st'.len + m'} (f + 1) =
                osfs_write_loop buf (osfs_alloc_extent sb 1 st'.inode).1
                  {{st' with inode := (osfs_alloc_extent sb 1 st'.inode).2.1} with
                    len := m'} f := by
              rw [writeLoop_succ, if_neg hm0]
              dsimp only
              rw [hT, if_neg (show ¬ (({st' with len := m'} : WriteSt).len = 0) from hm'0)]
              dsimp only
              rw [if_neg h2]
            refine ⟨hRres, st.len - st'.len + m', by omega, ?_, ?_, ?_, ?_⟩
            · rw [hQ, hQ'res0]
              dsimp only
              exact congrArg Int.ofNat (by omega)
            · rw [hQ]; exact hQ'data0
            · rw [hQ]; exact hQ'ppos0
            · rw [hQ]; exact hQ'size0

/-- Every failing osfs_write returns -ENOSPC, and either it failed on the
very first allocation (zero extents, full disk) leaving every component
untouched, or its final data region, file position and file size coincide
with those of the SUCCESSFUL write of some prefix of n ≤ len bytes — the
committed partial total — which returns n. -/
theorem osfs_write_fail_characterization (sb : OsfsSbInfo) (data : Nat → Nat)
    (inode : OsfsInode) (ppos : Nat) (buf : Nat → Nat) (len : Nat)
    (hfail : (osfs_write sb data inode ppos buf len).res < 0) :
    (osfs_write sb data inode ppos buf len).res = -ENOSPC ∧
    (((osfs_write sb data inode ppos buf len).sb = sb ∧
      (osfs_write sb data inode ppos buf len).data = data ∧
      (osfs_write sb data inode ppos buf len).inode = inode ∧
      (osfs_write sb data inode ppos buf len).ppos = ppos) ∨
     ∃ n, n ≤ len ∧
       (osfs_write sb data inode ppos buf n).res = Int.ofNat n ∧
       (osfs_write sb data inode ppos buf n).data =
         (osfs_write sb data inode ppos buf len).data ∧
       (osfs_write sb data inode ppos buf n).ppos =
         (osfs_write sb data inode ppos buf len).ppos ∧
       (osfs_write sb data inode ppos buf n).inode.i_size =
         (osfs_write sb data inode ppos buf len).inode.i_size) := by
  rw [osfs_write_eq] at hfail
  by_cases hec : inode.extent_count = 0
  · rw [if_pos hec] at hfail
    by_cases ha : (osfs_alloc_extent sb 1 inode).2.2 ≠ 0
    · have hun := alloc_extent_fail_unchanged sb 1 inode ha
      have hW : osfs_write sb data inode ppos buf len =
          ⟨sb, data, inode, ppos, -ENOSPC⟩ := by
        rw [osfs_write_eq, if_pos hec, if_pos ha, hun]
      rw [hW]
      exact ⟨rfl, Or.inl ⟨rfl, rfl, rfl, rfl⟩⟩
    · rw [if_neg ha] at hfail
      obtain ⟨hres, m, hmle, hQres, hQdata, hQppos, hQsize⟩ :=
        writeLoop_fail_prefix buf 8 (osfs_alloc_extent sb 1 inode).1
          ⟨data, ppos, 0, len,
           {(osfs_alloc_extent sb 1 inode).2.1 with extent_count := 1}⟩ hfail
      have hW : osfs_write sb data inode ppos buf len =
          osfs_write_loop buf (osfs_alloc_extent sb 1 inode).1
            ⟨data, ppos, 0, len,
             {(osfs_alloc_extent sb 1 inode).2.1 with extent_count := 1}⟩ 8 := by
        rw [osfs_write_eq, if_pos hec, if_neg ha]
      have hPm : osfs_write sb data inode ppos buf m =
          osfs_write_loop buf (osfs_alloc_extent sb 1 inode).1
            ⟨data, ppos, 0, m,
             {(osfs_alloc_extent sb 1 inode).2.1 with extent_count := 1}⟩ 8 := by
        rw [osfs_write_eq, if_pos hec, if_neg ha]
      refine ⟨by rw [hW]; exact hres, Or.inr ⟨m, hmle, ?_, ?_, ?_, ?_⟩⟩
      · rw [hPm]
        have h := hQres
        dsimp only at h
        simp only [Nat.zero_add] at h
        exact h
      · rw [hPm, hW]
        have h := hQdata
        dsimp only at h
        exact h
      · rw [hPm, hW]
        have h := hQppos
        dsimp only at h
        exact h
      · rw [hPm, hW]
        have h := hQsize
        dsimp only at h
        exact h
  · rw [if_neg hec] at hfail
    obtain ⟨hres, m, hmle, hQres, hQdata, hQppos, hQsize⟩ :=
      writeLoop_fail_prefix buf 8 sb ⟨data, ppos, 0, len, inode⟩ hfail
    have hW : osfs_write sb data inode ppos buf len =
        osfs_write_loop buf sb ⟨data, ppos, 0, len, inode⟩ 8 := by
      rw [osfs_write_eq, if_neg hec]
    have hPm : osfs_write sb data inode ppos buf m =
        osfs_write_loop buf sb ⟨data, ppos, 0, m, inode⟩ 8 := by
      rw [osfs_write_eq, if_neg hec]
    refine ⟨by rw [hW]; exact hres, Or.inr ⟨m, hmle, ?_, ?_, ?_, ?_⟩⟩
    · rw [hPm]
      have h := hQres
      dsimp only at h
      simp only [Nat.zero_add] at h
      exact h
    · rw [hPm, hW]
      have h := hQdata
      dsimp only at h
      exact h
    · rw [hPm, hW]
      have h := hQppos
      dsimp only at h
      exact h
    · rw [hPm, hW]
      have h := hQsize
      dsimp only at h
      exact h

/-- Claim C7 (amended): for every write that fails mid-way because extent
allocation fails, the bytes already copied remain committed — the failing
call's data region, file position and file size are exactly those of the
successful write of the partial prefix (or, when it failed on the very
first allocation before copying anything, everything is untouched) — but
the call returns the negative errno of the failed allocation (-ENOSPC),
not the count of bytes written before the failure; and after any write
the file size is at least its size before the write. -/
theorem c7_failed_write_commits_prefix_and_errno :
    (∀ (sb : OsfsSbInfo) (data : Nat → Nat) (inode : OsfsInode) (ppos : Nat)
        (buf : Nat → Nat) (len : Nat),
      inode.i_size ≤ (osfs_write sb data inode ppos buf len).inode.i_size) ∧
    (∀ (sb : OsfsSbInfo) (data : Nat → Nat) (inode : OsfsInode) (ppos : Nat)
        (buf : Nat → Nat) (len : Nat),
      (osfs_write sb data inode ppos buf len).res < 0 →
      (osfs_write sb data inode ppos buf len).res = -ENOSPC ∧
      (((osfs_write sb data inode ppos buf len).sb = sb ∧
        (osfs_write sb data inode ppos buf len).data = data ∧
        (osfs_write sb data inode ppos buf len).inode = inode ∧
        (osfs_write sb data inode ppos buf len).ppos = ppos) ∨
       ∃ n, n ≤ len ∧
         (osfs_write sb data inode ppos buf n).res = Int.ofNat n ∧
         (osfs_write sb data inode ppos buf n).data =
           (osfs_write sb data inode ppos buf len).data ∧
         (osfs_write sb data inode ppos buf n).ppos =
           (osfs_write sb data inode ppos buf len).ppos ∧
         (osfs_write sb data inode ppos buf n).inode.i_size =
           (osfs_write sb data inode ppos buf len).inode.i_size)) :=
  ⟨osfs_write_size_mono, osfs_write_fail_characterization⟩

/-- Witness for C7's amended theorem: the 4097-byte write on a full disk
(which commits 4096 bytes and then fails) satisfies the failure
hypothesis, and the characterization applies to it. -/
theorem c7_witness :
    (osfs_write c7_sb (fun _ => 0) c2_inode 0 (fun _ => 5) 4097).res < 0 ∧
    ((osfs_write c7_sb (fun _ => 0) c2_inode 0 (fun _ => 5) 4097).res = -ENOSPC ∧
     (((osfs_write c7_sb (fun _ => 0) c2_inode 0 (fun _ => 5) 4097).sb = c7_sb ∧
       (osfs_write c7_sb (fun _ => 0) c2_inode 0 (fun _ => 5) 4097).data = (fun _ => 0) ∧
       (osfs_write c7_sb (fun _ => 0) c2_inode 0 (fun _ => 5) 4097).inode = c2_inode ∧
       (osfs_write c7_sb (fun _ => 0) c2_inode 0 (fun _ => 5) 4097).ppos = 0) ∨
      ∃ n, n ≤ 4097 ∧
        (osfs_write c7_sb (fun _ => 0) c2_inode 0 (fun _ => 5) n).res = Int.ofNat n ∧
        (osfs_write c7_sb (fun _ => 0) c2_inode 0 (fun _ => 5) n).data =
          (osfs_write c7_sb (fun _ => 0) c2_inode 0 (fun _ => 5) 4097).data ∧
        (osfs_write c7_sb (fun _ => 0) c2_inode 0 (fun _ => 5) n).ppos =
          (osfs_write c7_sb (fun _ => 0) c2_inode 0 (fun _ => 5) 4097).ppos ∧
        (osfs_write c7_sb (fun _ => 0) c2_inode 0 (fun _ => 5) n).inode.i_size =
          (osfs_write c7_sb (fun _ => 0) c2_inode 0 (fun _ => 5) 4097).inode.i_size)) :=
  ⟨by decide,
   c7_failed_write_commits_prefix_and_errno.2 c7_sb (fun _ => 0) c2_inode 0
     (fun _ => 5) 4097 (by decide)⟩
